import Mathlib

/-!
Shallow embedding of the texting-project quiz server (`server.py`, `tracks.py`)
and proofs about its spec-level properties.

Modelling conventions:
* Python strings are modelled as `List Char` (`Str`); `str.strip` is modelled
  with `Char.isWhitespace` (the inputs relevant to the claims only use ASCII
  whitespace, where the two notions agree).
* Python floats are modelled as rationals (`ℚ`); all numeric literals that the
  grading code manipulates are exact decimals, so no rounding behaviour is lost.
* UTC instants (stored in the code as ISO-8601 strings, whose lexicographic
  order coincides with chronological order at fixed format and offset) are
  modelled as integers (minutes), ordered chronologically.
* Randomness (`random.randint`) is modelled by an explicit stream `ℕ → ℕ` of
  drawn values, and the `while` loop collecting unique values by explicit fuel.
-/

unseal Rat.add Rat.mul Rat.sub Rat.inv Rat.ofScientific

namespace TextingProject

/-- Python strings, modelled as lists of characters. -/
abbrev Str := List Char

/-! ## String helpers (`str.strip`, digit filtering, …) -/

/-- Leading-whitespace strip. -/
def lstrip (s : Str) : Str := s.dropWhile Char.isWhitespace

/-- Trailing-whitespace strip. -/
def rstrip (s : Str) : Str := (s.reverse.dropWhile Char.isWhitespace).reverse

/-- Python `str.strip()`: drop whitespace from both ends. -/
def pyStrip (s : Str) : Str := rstrip (lstrip s)

/-- Model of `re.sub(r"\D", "", s)`: keep only the digit characters. -/
def digitsOf (s : Str) : Str := s.filter Char.isDigit

/-! ## `server.py` — `_normalize_phone` -/

/-- Embedding of `server.py:_normalize_phone`:
strip; empty → empty; leading `+` → unchanged; else keep digits only and
canonicalise 10-digit (prepend `+1`) and leading-1 11-digit (prepend `+`)
numbers; otherwise return the stripped input. -/
def normalizePhone (phone : Str) : Str :=
  let s := pyStrip phone
  if s = [] then []
  else if s.head? = some '+' then s
  else
    let digits := digitsOf s
    if digits.length = 10 then '+' :: '1' :: digits
    else if digits.length = 11 ∧ digits.head? = some '1' then '+' :: digits
    else s

/-! ### Strip lemmas -/

theorem head?_dropWhile_not_of {p : Char → Bool} {l : Str} {c : Char}
    (h : (l.dropWhile p).head? = some c) : p c = false := by
  induction l with
  | nil => simp [List.dropWhile] at h
  | cons a t ih =>
    by_cases hp : p a
    · simp [List.dropWhile, hp] at h
      exact ih h
    · simp [List.dropWhile, hp] at h
      subst h
      simpa using hp

theorem dropWhile_eq_self_of_head {p : Char → Bool} {l : Str}
    (h : ∀ c, l.head? = some c → p c = false) : l.dropWhile p = l := by
  cases l with
  | nil => rfl
  | cons a t =>
    have : p a = false := h a rfl
    simp [List.dropWhile, this]

theorem lstrip_head_not_space {s : Str} {c : Char}
    (h : (lstrip s).head? = some c) : c.isWhitespace = false :=
  head?_dropWhile_not_of h

theorem lstrip_eq_self_of_head {s : Str}
    (h : ∀ c, s.head? = some c → c.isWhitespace = false) : lstrip s = s :=
  dropWhile_eq_self_of_head h

theorem rstrip_eq_self_of_getLast {s : Str}
    (h : ∀ c, s.getLast? = some c → c.isWhitespace = false) : rstrip s = s := by
  unfold rstrip
  rw [dropWhile_eq_self_of_head, List.reverse_reverse]
  intro c hc
  exact h c (by rwa [← List.head?_reverse])

theorem rstrip_getLast_not_space {s : Str} {c : Char}
    (h : (rstrip s).getLast? = some c) : c.isWhitespace = false := by
  unfold rstrip at h
  rw [List.getLast?_reverse] at h
  exact head?_dropWhile_not_of h

theorem rstrip_head_eq {s : Str} : (rstrip s).head? = s.head? ∨ rstrip s = [] := by
  unfold rstrip
  rcases hd : s.reverse.dropWhile Char.isWhitespace with _ | ⟨c, t⟩
  · right; simp
  · left
    have hsfx : (c :: t).IsSuffix s.reverse := by
      rw [← hd]; exact List.dropWhile_suffix _
    rcases hsfx with ⟨pre, hpre⟩
    have : s = (c :: t).reverse ++ pre.reverse := by
      have := congrArg List.reverse hpre
      simpa using this.symm
    rw [this]
    simp

theorem pyStrip_head_not_space {s : Str} {c : Char}
    (h : (pyStrip s).head? = some c) : c.isWhitespace = false := by
  unfold pyStrip at h
  rcases rstrip_head_eq (s := lstrip s) with heq | hnil
  · rw [heq] at h
    exact lstrip_head_not_space h
  · rw [hnil] at h
    simp at h

theorem pyStrip_getLast_not_space {s : Str} {c : Char}
    (h : (pyStrip s).getLast? = some c) : c.isWhitespace = false :=
  rstrip_getLast_not_space h

/-- A list whose head and last characters are not whitespace is
`pyStrip`-invariant. -/
theorem pyStrip_eq_self {s : Str}
    (hh : ∀ c, s.head? = some c → c.isWhitespace = false)
    (hl : ∀ c, s.getLast? = some c → c.isWhitespace = false) :
    pyStrip s = s := by
  unfold pyStrip
  rw [lstrip_eq_self_of_head hh, rstrip_eq_self_of_getLast hl]

theorem pyStrip_idem (s : Str) : pyStrip (pyStrip s) = pyStrip s :=
  pyStrip_eq_self (fun _ h => pyStrip_head_not_space h)
    (fun _ h => pyStrip_getLast_not_space h)

theorem digit_not_space {c : Char} (h : c.isDigit = true) :
    c.isWhitespace = false := by
  by_contra hw
  rw [Bool.not_eq_false] at hw
  have hcases : ((c = ' ' ∨ c = '\t') ∨ c = '\x0d') ∨ c = '\n' := by
    simpa [Char.isWhitespace, Bool.or_eq_true, decide_eq_true_eq] using hw
  rcases hcases with ((h1 | h1) | h1) | h1 <;>
    (subst h1; exact absurd h (by decide))

theorem mem_of_getLastOpt {α} {l : List α} {a : α} (h : l.getLast? = some a) :
    a ∈ l := by
  induction l with
  | nil => simp at h
  | cons b t ih =>
    cases t with
    | nil =>
      simp [List.getLast?] at h
      simp [h]
    | cons c t' =>
      rw [List.getLast?_cons_cons] at h
      exact List.mem_cons_of_mem _ (ih h)

theorem mem_digitsOf_isDigit {s : Str} {c : Char} (h : c ∈ digitsOf s) :
    c.isDigit = true := (List.mem_filter.mp h).2

/-- Lemma: `normalizePhone` maps any `+`-headed, whitespace-free-at-the-ends list to
itself. -/
theorem normalizePhone_plus (l : Str)
    (hlast : ∀ c, ('+' :: l).getLast? = some c → c.isWhitespace = false) :
    normalizePhone ('+' :: l) = '+' :: l := by
  have hstrip : pyStrip ('+' :: l) = '+' :: l := by
    apply pyStrip_eq_self
    · intro c hc
      simp at hc
      subst hc
      decide
    · exact hlast
  simp [normalizePhone, hstrip]

theorem getLast_plus_digits {ds : Str} (hne : ds ≠ []) (pre : Str) {c : Char}
    (hall : ∀ c ∈ ds, c.isDigit = true)
    (h : (pre ++ ds).getLast? = some c) : c.isWhitespace = false := by
  rw [List.getLast?_append_of_ne_nil _ hne] at h
  exact digit_not_space (hall c (mem_of_getLastOpt h))

/-- C8 (claim statement, proved): phone normalization is idempotent; in
particular every value already in the canonical image of `normalizePhone`
(e.g. one with a leading `+`) is returned unchanged by a second pass. -/
theorem normalizePhone_idempotent (p : Str) :
    normalizePhone (normalizePhone p) = normalizePhone p := by
  have hstr : pyStrip (pyStrip p) = pyStrip p := pyStrip_idem p
  have hdig : ∀ c ∈ digitsOf (pyStrip p), c.isDigit = true :=
    fun c hc => mem_digitsOf_isDigit hc
  by_cases h0 : pyStrip p = []
  · have hp : normalizePhone p = [] := by simp [normalizePhone, h0]
    rw [hp]
    simp [normalizePhone, pyStrip, lstrip, rstrip]
  · by_cases h1 : (pyStrip p).head? = some '+'
    · have hp : normalizePhone p = pyStrip p := by
        simp [normalizePhone, h0, h1]
      rw [hp]
      simp [normalizePhone, hstr, h0, h1]
    · by_cases h2 : (digitsOf (pyStrip p)).length = 10
      · have hp : normalizePhone p = '+' :: '1' :: digitsOf (pyStrip p) := by
          simp [normalizePhone, h0, h1, h2]
        rw [hp]
        apply normalizePhone_plus
        intro c hc
        have hne : digitsOf (pyStrip p) ≠ [] := by
          intro h
          rw [h] at h2
          simp at h2
        exact getLast_plus_digits hne ['+', '1'] hdig hc
      · by_cases h3 : (digitsOf (pyStrip p)).length = 11 ∧
            (digitsOf (pyStrip p)).head? = some '1'
        · have hp : normalizePhone p = '+' :: digitsOf (pyStrip p) := by
            simp [normalizePhone, h0, h1, h2, h3]
          rw [hp]
          apply normalizePhone_plus
          intro c hc
          have hne : digitsOf (pyStrip p) ≠ [] := by
            intro h
            rw [h] at h3
            simp at h3
          exact getLast_plus_digits hne ['+'] hdig hc
        · have hp : normalizePhone p = pyStrip p := by
            simp [normalizePhone, h0, h1, h2, h3]
          rw [hp]
          simp [normalizePhone, hstr, h0, h1, h2, h3]

/-! ## Data model (`db.py` `User` row, JSON payloads)

Timestamps (`created_at` / `updated_at`) are bookkeeping only and are elided.
UTC instants are integers (minutes); the code stores ISO-8601 UTC strings,
whose lexicographic order agrees with this chronological order. -/

/-- The `open` JSON payload produced by `_compose_question_text`. -/
inductive Payload
  | sample (track : Str) (qid : Str)
  | math (qid : Str) (track : Str)
  | noneKind
  deriving DecidableEq, Repr

/-- The `stats` JSON object. -/
structure Stats where
  asked : ℕ
  correct : ℕ
  streak : ℕ
  deriving DecidableEq, Repr

/-- The `schedule` JSON object: `{"local_date": ..., "remaining_utc": [...]}`. -/
structure Schedule where
  localDate : Option Str
  remainingUtc : List ℤ
  deriving DecidableEq, Repr

/-- A `users` row (`db.py:User`). `open` is a Lean keyword, hence `openQ`. -/
structure UserState where
  phone : Str
  name : Str
  track : Str
  perDay : ℤ
  timezone : Str
  subscribed : Bool
  openQ : Option Payload
  stats : Stats
  schedule : Schedule
  deriving DecidableEq, Repr

/-- The clamp `max(1, min(3, n))` as applied to `per_day` everywhere in `server.py`. -/
def clamp13 (n : ℤ) : ℤ := max 1 (min 3 n)

/-! ## `server.py` — `_pop_due_utc` -/

/-- Embedding of `server.py:_pop_due_utc`: empty remaining list → no due slots
and no change; otherwise the due slots are those `≤ now` and, when nonempty,
the schedule keeps exactly the slots `> now`. -/
def popDueUtc (nowUtc : ℤ) (u : UserState) : List ℤ × UserState :=
  let remaining := u.schedule.remainingUtc
  if remaining = [] then ([], u)
  else
    let due := remaining.filter (fun t => t ≤ nowUtc)
    if due = [] then (due, u)
    else (due,
      { u with schedule :=
          { u.schedule with remainingUtc := remaining.filter (fun t => nowUtc < t) } })

theorem filter_le_of_filter_gt (l : List ℤ) (now : ℤ) :
    (l.filter (fun t => now < t)).filter (fun t => t ≤ now) = [] := by
  rw [List.filter_eq_nil_iff]
  intro a ha
  have := (List.mem_filter.mp ha).2
  simp at this ⊢
  omega

theorem filter_gt_eq_self_of_no_due {l : List ℤ} {now : ℤ}
    (h : l.filter (fun t => t ≤ now) = []) :
    l.filter (fun t => now < t) = l := by
  rw [List.filter_eq_self]
  intro a ha
  have := List.filter_eq_nil_iff.mp h a ha
  simp at this ⊢
  omega

/-- C6 (claim statement, proved): a pop at instant `now` returns exactly the
slots `≤ now` and leaves exactly the slots `> now`; popping again at the same
instant returns nothing, so each slot is consumed at most once. -/
theorem popDueUtc_at_most_once (nowUtc : ℤ) (u : UserState) :
    (popDueUtc nowUtc u).1 = u.schedule.remainingUtc.filter (fun t => t ≤ nowUtc) ∧
    (popDueUtc nowUtc u).2.schedule.remainingUtc =
      u.schedule.remainingUtc.filter (fun t => nowUtc < t) ∧
    (popDueUtc nowUtc (popDueUtc nowUtc u).2).1 = [] ∧
    (popDueUtc nowUtc u).2.schedule.localDate = u.schedule.localDate := by
  have key : ∀ v : UserState,
      (popDueUtc nowUtc v).1 = v.schedule.remainingUtc.filter (fun t => t ≤ nowUtc) ∧
      (popDueUtc nowUtc v).2.schedule.remainingUtc =
        v.schedule.remainingUtc.filter (fun t => nowUtc < t) ∧
      (popDueUtc nowUtc v).2.schedule.localDate = v.schedule.localDate := by
    intro v
    unfold popDueUtc
    by_cases h0 : v.schedule.remainingUtc = []
    · simp [h0]
    · by_cases h1 : v.schedule.remainingUtc.filter (fun t => t ≤ nowUtc) = []
      · simp [h0, h1, filter_gt_eq_self_of_no_due h1]
      · simp [h0, h1]
  refine ⟨(key u).1, (key u).2.1, ?_, (key u).2.2⟩
  rw [(key _).1, (key u).2.1]
  exact filter_le_of_filter_gt _ _

/-! ## `server.py` — `_rand_local_minutes` and schedule generation

`WINDOW_START_HOUR` / `WINDOW_END_HOUR` are the env-driven configuration with
defaults 9 and 22 (`server.py` Config section). A local instant during today
is its minute-of-day; the user's timezone is a fixed UTC offset `off` in
minutes, so local→UTC conversion subtracts the offset. `random.randint(0,
span)` draws are modelled by an explicit stream of values (each `≤ span`), and
the collect-unique-values `while` loop by fuel; `none` means the fuel ran out
(the Python loop would simply keep drawing). -/

def WINDOW_START_HOUR : ℕ := 9

def WINDOW_END_HOUR : ℕ := 22

/-- Minute-of-day of the window start anchor (`today.replace(hour=9, ...)`). -/
def windowStartMin : ℕ := WINDOW_START_HOUR * 60

/-- Minute-of-day of the window end anchor. -/
def windowEndMin : ℕ := WINDOW_END_HOUR * 60

/-- The window span `max(0, (end - today).total_seconds() // 60)`. -/
def spanMinutes : ℤ := max 0 ((WINDOW_END_HOUR : ℤ) * 60 - (WINDOW_START_HOUR : ℤ) * 60)

/-- Local minute-of-day → UTC instant for a zone `off` minutes ahead of UTC. -/
def localToUtc (off : ℤ) (m : ℕ) : ℤ := (m : ℤ) - off

/-- UTC instant → local minute-of-day for the same zone. -/
def utcToLocal (off : ℤ) (t : ℤ) : ℤ := t + off

/-- Insertion step of a sort on minute lists (Python's `sorted`, modelled with
a structurally recursive insertion sort). -/
def insertSorted (x : ℕ) : List ℕ → List ℕ
  | [] => [x]
  | y :: t => if x ≤ y then x :: y :: t else y :: insertSorted x t

/-- Python `sorted(...)` on a list of minutes. -/
def sortMinutes (l : List ℕ) : List ℕ := l.foldr insertSorted []

theorem insertSorted_perm (x : ℕ) (l : List ℕ) :
    List.Perm (insertSorted x l) (x :: l) := by
  induction l with
  | nil => simp [insertSorted]
  | cons y t ih =>
    unfold insertSorted
    by_cases h : x ≤ y
    · simp [h]
    · simp only [h, if_false]
      exact List.Perm.trans (ih.cons y) (List.Perm.swap _ _ _)

theorem sortMinutes_perm (l : List ℕ) : List.Perm (sortMinutes l) l := by
  induction l with
  | nil => simp [sortMinutes]
  | cons y t ih =>
    unfold sortMinutes at *
    exact List.Perm.trans (insertSorted_perm _ _) (ih.cons y)

/-- The `while len(chosen) < n` loop of `_rand_local_minutes`: each iteration
draws `stream i` (an offset in `[0, span]`) and adds the corresponding minute
instant to the set `chosen` (a duplicate-free list; `List.insert` is a no-op
on duplicates, exactly like `set.add`). -/
def randLoop (stream : ℕ → ℕ) (n : ℕ) :
    ℕ → ℕ → List ℕ → Option (List ℕ)
  | fuel, i, chosen =>
    if n ≤ chosen.length then some chosen
    else
      match fuel with
      | 0 => none
      | fuel' + 1 =>
          randLoop stream n fuel' (i + 1) (chosen.insert (windowStartMin + stream i))

/-- Embedding of `server.py:_rand_local_minutes` (minute instants as
minute-of-day): clamp `n` to `[1,3]`; degenerate window → the single window
start anchor; otherwise collect `n` unique random minutes and return them
sorted (`sorted(list(chosen))`). -/
def randLocalMinutes (stream : ℕ → ℕ) (fuel : ℕ) (n : ℤ) : Option (List ℕ) :=
  let nn := (clamp13 n).toNat
  if spanMinutes ≤ 0 then some [windowStartMin]
  else (randLoop stream nn fuel 0 []).map sortMinutes

theorem length_insert_le (l : List ℕ) (a : ℕ) :
    (l.insert a).length ≤ l.length + 1 := by
  by_cases h : a ∈ l
  · rw [List.insert_of_mem h]
    omega
  · rw [List.insert_of_not_mem h]
    simp

theorem randLoop_card {stream : ℕ → ℕ} {n : ℕ} :
    ∀ {fuel i : ℕ} {chosen result : List ℕ},
      randLoop stream n fuel i chosen = some result →
      chosen.length ≤ n → result.length = n := by
  intro fuel
  induction fuel with
  | zero =>
    intro i chosen result h hle
    unfold randLoop at h
    by_cases hc : n ≤ chosen.length
    · simp [hc] at h
      subst h
      omega
    · simp [hc] at h
  | succ fuel' ih =>
    intro i chosen result h hle
    unfold randLoop at h
    by_cases hc : n ≤ chosen.length
    · simp [hc] at h
      subst h
      omega
    · simp [hc] at h
      refine ih h ?_
      have := length_insert_le chosen (windowStartMin + stream i)
      omega

theorem randLoop_invariant {stream : ℕ → ℕ} {n : ℕ} {P : List ℕ → Prop}
    (hins : ∀ l i, P l → P (l.insert (windowStartMin + stream i))) :
    ∀ {fuel i : ℕ} {chosen result : List ℕ},
      randLoop stream n fuel i chosen = some result → P chosen → P result := by
  intro fuel
  induction fuel with
  | zero =>
    intro i chosen result h hch
    unfold randLoop at h
    by_cases hc : n ≤ chosen.length
    · simp [hc] at h
      subst h
      exact hch
    · simp [hc] at h
  | succ fuel' ih =>
    intro i chosen result h hch
    unfold randLoop at h
    by_cases hc : n ≤ chosen.length
    · simp [hc] at h
      subst h
      exact hch
    · simp [hc] at h
      exact ih h (hins _ _ hch)

/-- C3 (claim statement, proved): whenever the generator completes, it yields
exactly `clamp13 per_day` distinct local minute instants, each inside the
configured 09:00–22:00 window; the stored UTC instants are equally many and
distinct, and each converts back to a local minute inside the window. -/
theorem schedule_cardinality_and_window
    (stream : ℕ → ℕ) (fuel : ℕ) (perDay off : ℤ) (l : List ℕ)
    (hstream : ∀ i, stream i ≤ 780)
    (hgen : randLocalMinutes stream fuel perDay = some l) :
    l.length = (clamp13 perDay).toNat ∧
    l.Nodup ∧
    (∀ m ∈ l, windowStartMin ≤ m ∧ m ≤ windowEndMin) ∧
    (l.map (localToUtc off)).Nodup ∧
    (l.map (localToUtc off)).length = (clamp13 perDay).toNat ∧
    ∀ t ∈ l.map (localToUtc off),
      (windowStartMin : ℤ) ≤ utcToLocal off t ∧ utcToLocal off t ≤ (windowEndMin : ℤ) := by
  unfold randLocalMinutes at hgen
  have hspan : ¬ spanMinutes ≤ 0 := by decide
  simp only [hspan, if_false, Option.map_eq_some'] at hgen
  obtain ⟨chosen, hloop, hsort⟩ := hgen
  have hcard : chosen.length = (clamp13 perDay).toNat :=
    randLoop_card hloop (by simp)
  have hnodupC : chosen.Nodup := by
    refine randLoop_invariant (P := List.Nodup) ?_ hloop List.nodup_nil
    intro l i hl
    exact hl.insert
  have hmem : ∀ m ∈ chosen, windowStartMin ≤ m ∧ m ≤ windowEndMin := by
    refine randLoop_invariant
      (P := fun l => ∀ m ∈ l, windowStartMin ≤ m ∧ m ≤ windowEndMin) ?_ hloop (by simp)
    intro l i hl m hm
    rcases List.mem_insert_iff.mp hm with hm | hm
    · subst hm
      have := hstream i
      unfold windowStartMin windowEndMin WINDOW_START_HOUR WINDOW_END_HOUR
      constructor <;> omega
    · exact hl m hm
  subst hsort
  have hperm := sortMinutes_perm chosen
  have hlen : (sortMinutes chosen).length = (clamp13 perDay).toNat := by
    rw [hperm.length_eq]
    exact hcard
  have hnodup : (sortMinutes chosen).Nodup := hperm.nodup_iff.mpr hnodupC
  have hmem' : ∀ m ∈ sortMinutes chosen, windowStartMin ≤ m ∧ m ≤ windowEndMin := by
    intro m hm
    exact hmem m (hperm.mem_iff.mp hm)
  refine ⟨hlen, hnodup, hmem', ?_, ?_, ?_⟩
  · refine hnodup.map ?_
    intro a b hab
    unfold localToUtc at hab
    omega
  · rw [List.length_map]
    exact hlen
  · intro t ht
    rcases List.mem_map.mp ht with ⟨m, hm, rfl⟩
    have := hmem' m hm
    unfold localToUtc utcToLocal
    constructor <;> omega

/-- C3 witness: a concrete bounded stream and fuel where the generator
completes, with `per_day = 3`, offset 300 minutes. -/
theorem schedule_cardinality_and_window_witness :
    (∀ i : ℕ, (fun j => j % 781) i ≤ 780) ∧
    randLocalMinutes (fun j => j % 781) 3 3 = some [540, 541, 542] ∧
    ([540, 541, 542].length = (clamp13 3).toNat ∧
    ([540, 541, 542] : List ℕ).Nodup ∧
    (∀ m ∈ [540, 541, 542], windowStartMin ≤ m ∧ m ≤ windowEndMin) ∧
    (([540, 541, 542] : List ℕ).map (localToUtc 300)).Nodup ∧
    (([540, 541, 542] : List ℕ).map (localToUtc 300)).length = (clamp13 3).toNat ∧
    ∀ t ∈ ([540, 541, 542] : List ℕ).map (localToUtc 300),
      (windowStartMin : ℤ) ≤ utcToLocal 300 t ∧ utcToLocal 300 t ≤ (windowEndMin : ℤ)) := by
  refine ⟨fun i => Nat.le_of_lt_succ (Nat.mod_lt _ (by omega)), ?_, ?_⟩
  · decide
  · exact schedule_cardinality_and_window (fun j => j % 781) 3 3 300 _
      (fun i => Nat.le_of_lt_succ (Nat.mod_lt _ (by omega))) (by decide)

/-! ## `server.py` — `_ensure_todays_schedule` -/

/-- Embedding of `server.py:_ensure_todays_schedule`. The clock/timezone are
supplied as `todayLocal` (today's date string in the user's zone) and the
random slot generation as `freshSlots` (clamped per-day count → UTC slot
list), abstracting `_rand_local_minutes` + UTC conversion (faithfully
modelled by `randLocalMinutes`/`localToUtc` above). Regeneration happens iff
the stored `local_date` differs from today. -/
def ensureTodaysSchedule (freshSlots : ℤ → List ℤ) (todayLocal : Str)
    (u : UserState) : UserState :=
  if u.schedule.localDate ≠ some todayLocal then
    { u with schedule := ⟨some todayLocal, freshSlots (clamp13 u.perDay)⟩ }
  else u

/-! ## `server.py` — `_compose_question_text` -/

/-- A sample (multiple-choice) question as returned by the Question Provider
(`tracks.pick_sample_question`); grading-only fields are elided. -/
structure SampleQ where
  id : Str
  q : Str
  choices : List Str
  deriving DecidableEq, Repr

/-- A generated math question (`tracks.make_math_question`). -/
structure MathQ where
  qid : Str
  question : Str
  deriving DecidableEq, Repr

def choiceLabels : List Char := ['A', 'B', 'C', 'D', 'E']

def newline : Str := ['\n']

/-- The MCQ text built by `_compose_question_text`: prompt, up to five
labelled choices (`f"{labels[i]}. {choice}"`), and a reply hint when there
are choices. -/
def buildSampleText (q : SampleQ) : Str :=
  let lines := q.q ::
    List.zipWith (fun l c => l :: '.' :: ' ' :: c) choiceLabels q.choices
  let lines := if q.choices ≠ [] then lines ++ ["Reply with A–E.".data] else lines
  List.intercalate newline lines

def apologyText : Str :=
  "Sorry, I couldn’t generate a question right now. Please text NEXT again.".data

/-- The fallback `u.track or "Consulting"`. -/
def trackOrDefault (t : Str) : Str := if t = [] then "Consulting".data else t

/-- Embedding of `server.py:_compose_question_text`, parameterised over the
two question providers, each of which may raise (`Except.error`): try the
sample question (its internal `try/except` swallows provider failures and
unusable results), then the math generator with `"General"` fallback, then a
fixed apology with payload kind `none`. -/
def composeQuestionText (pick : Str → Except Unit (Option SampleQ))
    (make : Str → Except Unit (Option MathQ)) (track : Str) : Str × Payload :=
  let attemptA : Option (Str × Payload) :=
    match pick track with
    | .error _ => none
    | .ok none => none
    | .ok (some q) =>
        if q.q ≠ [] then some (buildSampleText q, .sample track q.id) else none
  match attemptA with
  | some r => r
  | none =>
    let attemptB : Option (Str × Payload) :=
      match make track with
      | .error _ => none
      | .ok (some m) => some (m.question, .math m.qid track)
      | .ok none =>
          match make ("General".data) with
          | .error _ => none
          | .ok none => none
          | .ok (some m) => some (m.question, .math m.qid track)
    match attemptB with
    | some r => r
    | none => (apologyText, .noneKind)

/-! ## `server.py` — `_minute_tick` -/

/-- Environment of one scheduler tick: the question providers and the
transport (each of which may raise), schedule generation and the clock. -/
structure TickEnv where
  pick : Str → Except Unit (Option SampleQ)
  make : Str → Except Unit (Option MathQ)
  sendSms : Str → Str → Except Unit Unit
  freshSlots : ℤ → List ℤ
  todayLocal : Str
  nowUtc : ℤ

/-- Whether an `Except` computation completed without raising. -/
def exceptOk {ε α : Type} : Except ε α → Bool
  | .ok _ => true
  | .error _ => false

/-- The per-due-slot inner loop of `_minute_tick`: for each due slot, compose
a fresh question, set it as the user's open question, then send it. The
returned flag records whether the transport raised (aborting the loop); sends
made before the exception are still reported. -/
def dueLoop (env : TickEnv) : List ℤ → UserState → UserState × List (Str × Str) × Bool
  | [], u => (u, [], false)
  | _ :: rest, u =>
      let tp := composeQuestionText env.pick env.make (trackOrDefault u.track)
      let u' := { u with openQ := some tp.2 }
      if exceptOk (env.sendSms u'.phone tp.1) then
        let r := dueLoop env rest u'
        (r.1, (u'.phone, tp.1) :: r.2.1, r.2.2)
      else (u', [], true)

/-- Per-user body of `_minute_tick`: ensure today's schedule, pop the due
slots, and run the send loop over them. -/
def processUser (env : TickEnv) (u : UserState) :
    UserState × List (Str × Str) × Bool :=
  let u1 := ensureTodaysSchedule env.freshSlots env.todayLocal u
  let p := popDueUtc env.nowUtc u1
  dueLoop env p.1 p.2

/-- Embedding of `server.py:_minute_tick` over the whole user table. The tick
queries only subscribed users; each processed user is written back
(`_save`). An uncaught exception (only the transport can raise here, since
question composition swallows provider failures) aborts the tick: the failing
user's in-memory mutations are not committed and all later rows are left
untouched. Returns (table after the tick, emitted sends, whether it raised).
Per-user commit granularity is idealised (the ORM session could flush earlier
pending changes together with a later commit). -/
def minuteTick (env : TickEnv) : List UserState → List UserState × List (Str × Str) × Bool
  | [] => ([], [], false)
  | u :: rest =>
      if u.subscribed then
        let r := processUser env u
        if r.2.2 then (u :: rest, r.2.1, true)
        else
          let rec' := minuteTick env rest
          (r.1 :: rec'.1, r.2.1 ++ rec'.2.1, rec'.2.2)
      else
        let rec' := minuteTick env rest
        (u :: rec'.1, rec'.2.1, rec'.2.2)

/-! ## `tracks.py` — `QUESTIONS` and `pick_sample_question` -/

/-- The question bank `tracks.QUESTIONS`, embedded as the association list of
track names to the ids of their questions, in source order. Prompt texts,
choices, answers, rationales and tips are elided: no claim inspects them (the
sample-question flow is parameterised over a provider in this model, and
sample grading is parameterised over the grader result). -/
def QUESTIONS : List (Str × List Str) := [
  ("Consulting".data,
    ["cons_profit_1".data, "cons_market_1".data, "cons_price_1".data,
     "cons_seg_1".data, "cons_ops_1".data, "cons_case_math_1".data,
     "cons_case_math_2".data]),
  ("Investment Banking".data,
    ["ib_ev_1".data, "ib_dcf_1".data, "ib_leverage_1".data, "ib_acc_1".data,
     "ib_merger_1".data, "ib_workingcap_1".data]),
  ("High Finance".data,
    ["hf_risk_1".data, "hf_bonds_1".data, "hf_duration_1".data,
     "hf_options_1".data, "hf_fx_1".data]),
  ("GMAT".data, ["gmat_cr_1".data, "gmat_ps_1".data]),
  ("GRE".data, ["gre_quant_1".data, "gre_verbal_1".data]),
  ("SAT".data, ["sat_math_1".data, "sat_ebrw_1".data]),
  ("ACT".data, ["act_english_1".data, "act_math_1".data]),
  ("LSAT".data,
    ["lsat_lr_1".data, "lsat_lr_2".data, "lsat_lr_3".data, "lsat_lr_4".data,
     "lsat_lr_5".data, "lsat_lg_1".data, "lsat_rc_1".data]),
  ("CPA".data, ["cpa_gaap_1".data]),
  ("CMA".data, ["cma_cv_1".data]),
  ("CFA Level I".data, ["cfa1_time_1".data]),
  ("CFA Level II".data, ["cfa2_fcff_1".data]),
  ("CFA Level III".data, ["cfa3_ips_1".data])]

/-- The track names, in source order (`list(QUESTIONS.keys())`). -/
def TRACK_NAMES : List Str := QUESTIONS.map Prod.fst

/-- Embedding of `tracks.pick_sample_question`: `qs[0] if qs else None`
(a missing track and an empty list both yield `None`). Here a question is
represented by its id. -/
def pickSampleQuestion (track : Str) : Option Str :=
  match List.lookup track QUESTIONS with
  | none => none
  | some qs => qs.head?

/-! ## `server.py` — `_grade_open` -/

/-- Structured result of `tracks.grade_answer` on sample MCQs: the
`{"error": ...}` dict (question not found) or a verdict with optional
rationale/tip (the `correct_answer`/`correct_letter` fields are elided — the
handler never reads them). -/
inductive SampleGrade
  | err
  | graded (correct : Bool) (rationale : Option Str) (tip : Option Str)
  deriving DecidableEq, Repr

/-- Structured result of `tracks.grade_math_q`: the parse-error dict or a
verdict carrying the expected value and optional units/rationale for the
reply text. -/
inductive MathGrade
  | parseErr
  | graded (correct : Bool) (expected : ℚ) (units : Option Str) (rationale : Option Str)
  deriving DecidableEq, Repr

/-- Result of `_grade_open`: Python `None` (no open question), a
`{"body": ...}` reply together with the (possibly mutated) user, or an
unhandled exception (`grade_math_q` returning `None` on a malformed qid makes
`"error" in res` raise). -/
inductive GradeOutcome
  | noOpen
  | reply (u : UserState) (body : Str)
  | crash
  deriving DecidableEq, Repr

/-- The fallback `open_q.get("track") or user.track or "Consulting"`. -/
def resolveTrack (payloadTrack userTrack : Str) : Str :=
  if payloadTrack ≠ [] then payloadTrack
  else if userTrack ≠ [] then userTrack
  else "Consulting".data

/-- The stats mutation common to both grading branches of `_grade_open`:
`asked += 1`; on correct, `correct += 1` and `streak += 1`; otherwise
`streak = 0`. -/
def bumpStats (s : Stats) (correct : Bool) : Stats :=
  { asked := s.asked + 1,
    correct := if correct then s.correct + 1 else s.correct,
    streak := if correct then s.streak + 1 else 0 }

/-- Model of `if res.get(k): parts.append(prefix + res[k])` — skipped on missing or
empty values. -/
def optLine (pre : Str) : Option Str → List Str
  | none => []
  | some s => if s ≠ [] then [pre ++ s] else []

/-- Decimal rendering of the expected value (Python interpolates the float;
the exact numeral formatting is display-only). -/
def ratToStr (x : ℚ) : Str := (toString x).data

def sampleRetryMsg : Str :=
  "Sorry—I couldn’t grade that. Reply with A, B, C, D, or E.".data

def mathRetryMsg : Str :=
  "I couldn’t parse that number. Try digits (and % if needed).".data

def unknownKindMsg : Str := "Unknown question type. Reply NEXT for a new one.".data

def replyNextHint : Str := "Reply NEXT for another question.".data

def sampleReplyText (correct : Bool) (rationale tip : Option Str) : Str :=
  List.intercalate newline
    (([if correct then "Correct.".data else "Not quite.".data] ++
      optLine "Why: ".data rationale ++ optLine "Tip: ".data tip) ++ [replyNextHint])

def mathReplyText (correct : Bool) (expected : ℚ) (units : Option Str)
    (rationale : Option Str) : Str :=
  let unitsS := units.getD []
  let head :=
    if correct then "Correct.".data
    else "Not quite. Expected ".data ++ ratToStr expected ++
      (if unitsS ≠ [] then ' ' :: unitsS else []) ++ ".".data
  List.intercalate newline
    (([head] ++ optLine "Why: ".data rationale) ++ [replyNextHint])

/-- Embedding of `server.py:_grade_open`, parameterised over the two graders
(`grade_answer` / `grade_math_q`); a grader returning `none` models
`grade_math_q` falling through all qid kinds (Python `None`), which makes the
caller raise. -/
def gradeOpen (gradeAnswerFn : Str → Str → Str → SampleGrade)
    (gradeMathFn : Str → Str → Str → Option MathGrade)
    (u : UserState) (raw : Str) : GradeOutcome :=
  match u.openQ with
  | none => .noOpen
  | some p =>
    let ansText := pyStrip raw
    match p with
    | .sample ptrack qid =>
        match gradeAnswerFn (resolveTrack ptrack u.track) qid ansText with
        | .err => .reply u sampleRetryMsg
        | .graded correct r t =>
            .reply { u with stats := bumpStats u.stats correct, openQ := none }
              (sampleReplyText correct r t)
    | .math qid ptrack =>
        match gradeMathFn (resolveTrack ptrack u.track) qid ansText with
        | none => .crash
        | some .parseErr => .reply u mathRetryMsg
        | some (.graded correct expected units r) =>
            .reply { u with stats := bumpStats u.stats correct, openQ := none }
              (mathReplyText correct expected units r)
    | .noneKind => .reply u unknownKindMsg

/-! ## `server.py` — the `/sms` webhook -/

/-- Environment of the `/sms` webhook handler: question providers, graders,
timezone validation (`pytz.timezone` succeeding or raising), schedule
generation, and today's local date string. (The minor dependence of the date
string on a just-changed timezone is collapsed into the single `todayLocal`.) -/
structure SmsEnv where
  pick : Str → Except Unit (Option SampleQ)
  make : Str → Except Unit (Option MathQ)
  gradeAnswerFn : Str → Str → Str → SampleGrade
  gradeMathFn : Str → Str → Str → Option MathGrade
  validTz : Str → Bool
  freshSlots : ℤ → List ℤ
  todayLocal : Str

def DEFAULT_TZ : Str := "America/New_York".data

/-- Embedding of `server.py:_user_tzname`. -/
def userTzname (u : UserState) : Str :=
  let t := pyStrip (if u.timezone ≠ [] then u.timezone else DEFAULT_TZ)
  if t ≠ [] then t else DEFAULT_TZ

/-- The suffix `tzname.split("/")[-1]`. -/
def lastSlashComponent (s : Str) : Str := (s.splitOn '/').getLastD s

def intToStr (n : ℤ) : Str := (toString n).data

/-- Embedding of `server.py:_welcome_text`. -/
def welcomeText (u : UserState) : Str :=
  "Welcome to BrainTrain Daily!\nYou’ll receive ".data ++ intToStr u.perDay ++
  " question(s) randomly between 09:00–22:00 ".data ++
  lastSlashComponent (userTzname u) ++
  ".\nCommands: HELP, NEXT, TRACK <name>, FREQ <1-3>, TIMEZONE <Area/City>.\nUnsubscribe any time: STOP.".data

/-- Python `str.split()` (split on whitespace runs, dropping empties). -/
def splitWsAux : Str → Str → List Str
  | [], acc => if acc = [] then [] else [acc.reverse]
  | c :: t, acc =>
      if c.isWhitespace then
        if acc = [] then splitWsAux t [] else acc.reverse :: splitWsAux t []
      else splitWsAux t (c :: acc)

def splitWs (s : Str) : List Str := splitWsAux s []

/-- Model of `body.partition(" ")[2]`: everything after the first space, or empty. -/
def afterFirstSpace : Str → Str
  | [] => []
  | c :: t => if c = ' ' then t else afterFirstSpace t

/-- Command extraction of the webhook: uppercase (ASCII model of
`str.upper`), first whitespace token, keep only `A`–`Z`, and recognise a bare
`?`. -/
def extractCmd (body : Str) : Str :=
  let textUpper := body.map Char.toUpper
  let cmdRaw := (splitWs textUpper).headD []
  let cmd0 := cmdRaw.filter fun c => decide ('A' ≤ c) && decide (c ≤ 'Z')
  if cmd0 = [] ∧ '?' ∈ cmdRaw then ['?'] else cmd0

/-- Python `int(...)` on a nonempty digit string. -/
def natOfDigits (ds : Str) : ℕ :=
  ds.foldl (fun acc c => acc * 10 + (c.toNat - '0'.toNat)) 0

def STOP_COMMANDS : List Str :=
  ["STOP".data, "STOPALL".data, "UNSUBSCRIBE".data, "CANCEL".data,
   "END".data, "QUIT".data]

def HELP_COMMANDS : List Str := ["HELP".data, "H".data, "?".data]

def unsubscribedMsg : Str :=
  "You have been unsubscribed. Text START to re-subscribe.".data

def resubscribedMsg : Str := "You are re-subscribed.".data

def tracksLine : Str :=
  List.intercalate ", ".data (TRACK_NAMES.take 10) ++
    (if TRACK_NAMES.length > 10 then "...".data else [])

def helpMessages : List Str :=
  ["Commands:".data,
   "NEXT — new question now".data,
   "TRACK <name> — change topic".data,
   "FREQ <1-3> — messages/day".data,
   "TIMEZONE <Area/City> — set your zone".data,
   "Tracks: ".data ++ tracksLine,
   "STOP — unsubscribe".data]

def unknownTrackMsg : Str :=
  "Unknown track. Options: ".data ++ List.intercalate ", ".data TRACK_NAMES

def trackChangedMsg (choice : Str) : Str :=
  "Track changed to ".data ++ choice ++ ".".data

def freqUsageMsg : Str := "Please send FREQ 1, FREQ 2, or FREQ 3.".data

def freqUpdatedMsg (val : ℤ) : Str :=
  "Frequency updated: ".data ++ intToStr val ++
    " per day between 09:00–22:00.".data

def invalidTzMsg : Str :=
  "Invalid timezone. Example: TIMEZONE America/Los_Angeles".data

def tzSetMsg (z : Str) : Str := "Timezone set to ".data ++ z ++ ".".data

def fallbackMsg : Str := "Reply NEXT for a new question or HELP for commands.".data

/-- Embedding of the POST branch of `server.py:sms` for an existing user
(user creation by `_ensure_user` is modelled by `freshUser` below). Returns
the saved user state and the TwiML reply messages; `none` models an unhandled
exception escaping the handler. -/
def smsHandler (env : SmsEnv) (u : UserState) (rawBody : Str) :
    Option (UserState × List Str) :=
  let body := pyStrip rawBody
  let cmd := extractCmd body
  if cmd ∈ STOP_COMMANDS then
    some ({ u with subscribed := false }, [unsubscribedMsg])
  else if cmd = "START".data then
    let u' := { u with subscribed := true }
    some (u', [resubscribedMsg, welcomeText u'])
  else if cmd ∈ HELP_COMMANDS then
    some (u, helpMessages)
  else if cmd = "TRACK".data then
    let choice := pyStrip (afterFirstSpace body)
    if (List.lookup choice QUESTIONS).isNone then
      some (u, [unknownTrackMsg])
    else
      let tp := composeQuestionText env.pick env.make choice
      some ({ u with track := choice, openQ := some tp.2 },
        [trackChangedMsg choice, tp.1])
  else if cmd = "FREQ".data then
    let digits := digitsOf (afterFirstSpace body)
    if digits = [] then some (u, [freqUsageMsg])
    else
      let val := clamp13 (natOfDigits digits)
      let u1 := { u with perDay := val, schedule := ⟨some env.todayLocal, []⟩ }
      some (ensureTodaysSchedule env.freshSlots env.todayLocal u1,
        [freqUpdatedMsg val])
  else if cmd = "TIMEZONE".data then
    let z := pyStrip (afterFirstSpace body)
    if env.validTz z = false then some (u, [invalidTzMsg])
    else
      let u1 := { u with timezone := z, schedule := ⟨some env.todayLocal, []⟩ }
      some (ensureTodaysSchedule env.freshSlots env.todayLocal u1, [tzSetMsg z])
  else if cmd = "NEXT".data ∨ body = [] then
    let tp := composeQuestionText env.pick env.make (trackOrDefault u.track)
    some ({ u with openQ := some tp.2 }, [tp.1])
  else
    match gradeOpen env.gradeAnswerFn env.gradeMathFn u body with
    | .reply u' msg => some (u', [msg])
    | .noOpen => some (u, [fallbackMsg])
    | .crash => none

/-- The defaults row created by `server.py:_ensure_user` for a new phone. -/
def freshUser (phone : Str) : UserState :=
  { phone := normalizePhone phone
    name := []
    track := "Consulting".data
    perDay := 1
    timezone := DEFAULT_TZ
    subscribed := true
    openQ := none
    stats := ⟨0, 0, 0⟩
    schedule := ⟨none, []⟩ }

/-! ## Tick lemmas -/

theorem ensureTodaysSchedule_already (fs : ℤ → List ℤ) (today : Str)
    (u : UserState) (h : u.schedule.localDate = some today) :
    ensureTodaysSchedule fs today u = u := by
  simp [ensureTodaysSchedule, h]

theorem ensureTodaysSchedule_phone (fs : ℤ → List ℤ) (today : Str)
    (u : UserState) : (ensureTodaysSchedule fs today u).phone = u.phone := by
  unfold ensureTodaysSchedule
  split <;> rfl

theorem ensureTodaysSchedule_track (fs : ℤ → List ℤ) (today : Str)
    (u : UserState) : (ensureTodaysSchedule fs today u).track = u.track := by
  unfold ensureTodaysSchedule
  split <;> rfl

theorem popDueUtc_phone (n : ℤ) (u : UserState) :
    (popDueUtc n u).2.phone = u.phone := by
  unfold popDueUtc
  dsimp only
  split
  · rfl
  · split <;> rfl

theorem popDueUtc_track (n : ℤ) (u : UserState) :
    (popDueUtc n u).2.track = u.track := by
  unfold popDueUtc
  dsimp only
  split
  · rfl
  · split <;> rfl

theorem dueLoop_phone (env : TickEnv) :
    ∀ (due : List ℤ) (u : UserState),
      (dueLoop env due u).1.phone = u.phone ∧
      ∀ s ∈ (dueLoop env due u).2.1, s.1 = u.phone := by
  intro due
  induction due with
  | nil => intro u; exact ⟨rfl, by simp [dueLoop]⟩
  | cons d rest ih =>
    intro u
    unfold dueLoop
    dsimp only
    generalize composeQuestionText env.pick env.make (trackOrDefault u.track) = tp
    have hrec := ih { u with openQ := some tp.2 }
    by_cases hsend : exceptOk (env.sendSms u.phone tp.1)
    · simp only [hsend, if_true]
      refine ⟨hrec.1, ?_⟩
      intro s hs
      simp only [List.mem_cons] at hs
      rcases hs with hs | hs
      · rw [hs]
      · exact hrec.2 s hs
    · simp only [hsend, if_false]
      exact ⟨rfl, by simp⟩

theorem processUser_sends_phone (env : TickEnv) (u : UserState) :
    ∀ s ∈ (processUser env u).2.1, s.1 = u.phone := by
  intro s hs
  unfold processUser at hs
  have h := (dueLoop_phone env (popDueUtc env.nowUtc
      (ensureTodaysSchedule env.freshSlots env.todayLocal u)).1
      (popDueUtc env.nowUtc (ensureTodaysSchedule env.freshSlots env.todayLocal u)).2).2 s hs
  rw [h, popDueUtc_phone, ensureTodaysSchedule_phone]

theorem minuteTick_cons_aborted {env : TickEnv} {u : UserState}
    (rest : List UserState) (hsub : u.subscribed = true)
    (hab : (processUser env u).2.2 = true) :
    minuteTick env (u :: rest) = (u :: rest, (processUser env u).2.1, true) := by
  simp [minuteTick, hsub, hab]

theorem minuteTick_cons_processed {env : TickEnv} {u : UserState}
    (rest : List UserState) (hsub : u.subscribed = true)
    (hab : (processUser env u).2.2 = false) :
    minuteTick env (u :: rest) =
      ((processUser env u).1 :: (minuteTick env rest).1,
       (processUser env u).2.1 ++ (minuteTick env rest).2.1,
       (minuteTick env rest).2.2) := by
  simp [minuteTick, hsub, hab]

theorem minuteTick_cons_unsubscribed {env : TickEnv} {u : UserState}
    (rest : List UserState) (hsub : u.subscribed = false) :
    minuteTick env (u :: rest) =
      (u :: (minuteTick env rest).1, (minuteTick env rest).2.1,
       (minuteTick env rest).2.2) := by
  simp [minuteTick, hsub]

theorem minuteTick_sends_from_subscribed (env : TickEnv) :
    ∀ (users : List UserState), ∀ s ∈ (minuteTick env users).2.1,
      ∃ v ∈ users, v.subscribed = true ∧ v.phone = s.1 := by
  intro users
  induction users with
  | nil => simp [minuteTick]
  | cons u rest ih =>
    intro s hs
    by_cases hsub : u.subscribed
    · by_cases hab : (processUser env u).2.2
      · rw [minuteTick_cons_aborted rest hsub hab] at hs
        exact ⟨u, by simp, hsub, (processUser_sends_phone env u s hs).symm⟩
      · rw [minuteTick_cons_processed rest hsub (by simpa using hab)] at hs
        simp only [List.mem_append] at hs
        rcases hs with hs | hs
        · exact ⟨u, by simp, hsub, (processUser_sends_phone env u s hs).symm⟩
        · rcases ih s hs with ⟨v, hv, hvs, hvp⟩
          exact ⟨v, by simp [hv], hvs, hvp⟩
    · rw [minuteTick_cons_unsubscribed rest (by simpa using hsub)] at hs
      rcases ih s hs with ⟨v, hv, hvs, hvp⟩
      exact ⟨v, by simp [hv], hvs, hvp⟩

/-! ## C2 — failure isolation in the scheduler tick -/

/-- A tick environment whose transport never raises (the providers may). -/
def okTickEnv (pick : Str → Except Unit (Option SampleQ))
    (make : Str → Except Unit (Option MathQ)) (fresh : ℤ → List ℤ)
    (today : Str) (now : ℤ) : TickEnv :=
  { pick := pick, make := make, sendSms := fun _ _ => Except.ok ()
    freshSlots := fresh, todayLocal := today, nowUtc := now }

theorem dueLoop_ok_transport (pick : Str → Except Unit (Option SampleQ))
    (make : Str → Except Unit (Option MathQ)) (fresh : ℤ → List ℤ)
    (today : Str) (now : ℤ) :
    ∀ (due : List ℤ) (u : UserState),
      (dueLoop (okTickEnv pick make fresh today now) due u).2.2 = false := by
  intro due
  induction due with
  | nil => intro u; rfl
  | cons d rest ih =>
    intro u
    unfold dueLoop
    dsimp only
    exact ih _

theorem processUser_ok_transport (pick : Str → Except Unit (Option SampleQ))
    (make : Str → Except Unit (Option MathQ)) (fresh : ℤ → List ℤ)
    (today : Str) (now : ℤ) (u : UserState) :
    (processUser (okTickEnv pick make fresh today now) u).2.2 = false := by
  unfold processUser
  exact dueLoop_ok_transport pick make fresh today now _ _

/-- C2 (amended, proved): with a transport that does not raise, every tick
processes every user, whatever the two question providers do (including
raising): composition swallows provider failures internally. Each subscribed
user is processed and saved, unsubscribed users are untouched, all per-user
sends are emitted, and the tick never raises. -/
theorem tick_processes_all_users_when_transport_ok
    (pick : Str → Except Unit (Option SampleQ))
    (make : Str → Except Unit (Option MathQ)) (fresh : ℤ → List ℤ)
    (today : Str) (now : ℤ) (users : List UserState) :
    minuteTick (okTickEnv pick make fresh today now) users =
      (users.map (fun u => if u.subscribed then
          (processUser (okTickEnv pick make fresh today now) u).1 else u),
       ((users.filter (fun u => u.subscribed)).map
          (fun u => (processUser (okTickEnv pick make fresh today now) u).2.1)).flatten,
       false) := by
  induction users with
  | nil => rfl
  | cons u rest ih =>
    by_cases hsub : u.subscribed
    · rw [minuteTick_cons_processed rest hsub
        (processUser_ok_transport pick make fresh today now u), ih]
      simp [hsub]
    · rw [minuteTick_cons_unsubscribed rest (by simpa using hsub), ih]
      simp [hsub]

/-- Tick environment for the C2 counterexample: providers return no question
(composition falls back to the apology text) and the transport raises on
every send. -/
def failSendTickEnv : TickEnv :=
  { pick := fun _ => Except.ok none
    make := fun _ => Except.ok none
    sendSms := fun _ _ => Except.error ()
    freshSlots := fun _ => []
    todayLocal := "2026-10-12".data
    nowUtc := 0 }

/-- First subscribed user with one due slot. -/
def tickUserA : UserState :=
  { freshUser ("+15550000001".data) with
      schedule := ⟨some ("2026-10-12".data), [0]⟩ }

/-- Second subscribed user with one due slot. -/
def tickUserB : UserState :=
  { freshUser ("+15550000002".data) with
      schedule := ⟨some ("2026-10-12".data), [0]⟩ }

/-- C2 (counterexample): both users are subscribed with a due slot, the
transport raises on the first send, and the tick aborts: no send is made, the
exception escapes (`true`), and the second user is left unprocessed — its due
slot is still in `remaining_utc`, contradicting "all subsequent users in the
same tick are still processed" and "a send_sms failure never propagates". -/
theorem transport_failure_aborts_tick :
    tickUserA.subscribed = true ∧ tickUserB.subscribed = true ∧
    minuteTick failSendTickEnv [tickUserA, tickUserB] =
      ([tickUserA, tickUserB], [], true) ∧
    tickUserB.schedule.remainingUtc = [0] := by
  refine ⟨rfl, rfl, ?_, rfl⟩
  rfl

/-! ## C1 — the FREQ command and today's schedule -/

/-- C1 (code bug exhibited): for any user, `FREQ 2` sets `per_day` to the
clamped value but stores `{"local_date": today, "remaining_utc": []}`: the
immediately following `_ensure_todays_schedule` call is gated off by the
just-written `local_date == today`, so the remaining slots are empty rather
than the clamped `per_day` fresh instants the claim describes. The second
conjunct shows what regeneration produces whenever it is not gated (a stale
or unset date): exactly the fresh clamped-`per_day` slot list. -/
theorem freq_leaves_todays_schedule_empty (env : SmsEnv) (u : UserState) :
    smsHandler env u ("FREQ 2".data) =
      some ({ u with perDay := 2, schedule := ⟨some env.todayLocal, []⟩ },
        [freqUpdatedMsg 2]) ∧
    (∀ v : UserState,
      (ensureTodaysSchedule env.freshSlots env.todayLocal
          { v with schedule := ⟨none, []⟩ }).schedule.remainingUtc =
        env.freshSlots (clamp13 v.perDay)) := by
  constructor
  · have hfix := ensureTodaysSchedule_already env.freshSlots env.todayLocal
      { u with perDay := 2, schedule := ⟨some env.todayLocal, []⟩ } rfl
    calc smsHandler env u ("FREQ 2".data)
        = some (ensureTodaysSchedule env.freshSlots env.todayLocal
            { u with perDay := 2, schedule := ⟨some env.todayLocal, []⟩ },
            [freqUpdatedMsg 2]) := by rfl
      _ = some ({ u with perDay := 2, schedule := ⟨some env.todayLocal, []⟩ },
            [freqUpdatedMsg 2]) := by rw [hfix]
  · intro v
    simp [ensureTodaysSchedule]

/-! ## C7 — STOP/START, scheduled and reactive sends -/

theorem ensureTodaysSchedule_subscribed (fs : ℤ → List ℤ) (today : Str)
    (u : UserState) :
    (ensureTodaysSchedule fs today u).subscribed = u.subscribed := by
  unfold ensureTodaysSchedule
  split <;> rfl

theorem gradeOpen_reply_subscribed (gA : Str → Str → Str → SampleGrade)
    (gM : Str → Str → Str → Option MathGrade) (u : UserState) (raw : Str)
    {u' : UserState} {msg : Str}
    (h : gradeOpen gA gM u raw = .reply u' msg) : u'.subscribed = u.subscribed := by
  unfold gradeOpen at h
  repeat' first
    | split at h
    | dsimp only at h
  all_goals first
    | (injection h with h1 h2; rw [← h1])
    | injection h

/-- How any webhook reply changes `subscribed`: STOP-family commands clear
it, START sets it, every other branch leaves it unchanged. -/
theorem smsHandler_subscribed (env : SmsEnv) (u : UserState) (body : Str) :
    ∀ {u' : UserState} {msgs : List Str},
      smsHandler env u body = some (u', msgs) →
      u'.subscribed =
        (if extractCmd (pyStrip body) ∈ STOP_COMMANDS then false
         else if extractCmd (pyStrip body) = "START".data then true
         else u.subscribed) := by
  intro u' msgs h
  unfold smsHandler at h
  dsimp only at h
  by_cases h1 : extractCmd (pyStrip body) ∈ STOP_COMMANDS
  · rw [if_pos h1] at h ⊢
    simp only [Option.some.injEq, Prod.mk.injEq] at h
    rw [← h.1]
  · rw [if_neg h1] at h ⊢
    by_cases h2 : extractCmd (pyStrip body) = "START".data
    · rw [if_pos h2] at h ⊢
      simp only [Option.some.injEq, Prod.mk.injEq] at h
      rw [← h.1]
    · rw [if_neg h2] at h ⊢
      by_cases h3 : extractCmd (pyStrip body) ∈ HELP_COMMANDS
      · rw [if_pos h3] at h
        simp only [Option.some.injEq, Prod.mk.injEq] at h
        rw [← h.1]
      · rw [if_neg h3] at h
        by_cases h4 : extractCmd (pyStrip body) = "TRACK".data
        · rw [if_pos h4] at h
          by_cases h5 : (List.lookup (pyStrip (afterFirstSpace (pyStrip body))) QUESTIONS).isNone = true
          · rw [if_pos h5] at h
            simp only [Option.some.injEq, Prod.mk.injEq] at h
            rw [← h.1]
          · rw [if_neg h5] at h
            simp only [Option.some.injEq, Prod.mk.injEq] at h
            rw [← h.1]
        · rw [if_neg h4] at h
          by_cases h6 : extractCmd (pyStrip body) = "FREQ".data
          · rw [if_pos h6] at h
            by_cases h7 : digitsOf (afterFirstSpace (pyStrip body)) = []
            · rw [if_pos h7] at h
              simp only [Option.some.injEq, Prod.mk.injEq] at h
              rw [← h.1]
            · rw [if_neg h7] at h
              simp only [Option.some.injEq, Prod.mk.injEq] at h
              rw [← h.1, ensureTodaysSchedule_subscribed]
          · rw [if_neg h6] at h
            by_cases h8 : extractCmd (pyStrip body) = "TIMEZONE".data
            · rw [if_pos h8] at h
              by_cases h9 : env.validTz (pyStrip (afterFirstSpace (pyStrip body))) = false
              · rw [if_pos h9] at h
                simp only [Option.some.injEq, Prod.mk.injEq] at h
                rw [← h.1]
              · rw [if_neg h9] at h
                simp only [Option.some.injEq, Prod.mk.injEq] at h
                rw [← h.1, ensureTodaysSchedule_subscribed]
            · rw [if_neg h8] at h
              by_cases h10 : extractCmd (pyStrip body) = "NEXT".data ∨ pyStrip body = []
              · rw [if_pos h10] at h
                simp only [Option.some.injEq, Prod.mk.injEq] at h
                rw [← h.1]
              · rw [if_neg h10] at h
                rcases hg : gradeOpen env.gradeAnswerFn env.gradeMathFn u (pyStrip body)
                    with _ | ⟨ug, msg'⟩ | _ <;> rw [hg] at h <;> dsimp only at h
                · simp only [Option.some.injEq, Prod.mk.injEq] at h
                  rw [← h.1]
                · simp only [Option.some.injEq, Prod.mk.injEq] at h
                  rw [← h.1]
                  exact gradeOpen_reply_subscribed env.gradeAnswerFn env.gradeMathFn u
                    (pyStrip body) hg
                · exact absurd h (by simp)

/-- Webhook environment for the C7 scenario: the sample provider serves one
fixed question. -/
def demoSmsEnv : SmsEnv :=
  { pick := fun _ => Except.ok (some
      ⟨"cons_profit_1".data, "Which analysis should you run first?".data, []⟩)
    make := fun _ => Except.ok none
    gradeAnswerFn := fun _ _ _ => SampleGrade.err
    gradeMathFn := fun _ _ _ => some MathGrade.parseErr
    validTz := fun _ => false
    freshSlots := fun _ => []
    todayLocal := "2026-10-12".data }

/-- A user who has opted out via STOP. -/
def unsubscribedDemoUser : UserState :=
  { freshUser ("+15550000003".data) with subscribed := false }

/-- C7 (counterexample): an unsubscribed user who texts NEXT still receives a
question reply — a reactive send that is not a re-subscription response — and
even gets an open question assigned; the claim that all reactive sends are
suppressed while `subscribed` is false is wrong (the webhook never consults
`subscribed` outside the STOP/START branches). -/
theorem unsubscribed_user_still_gets_question :
    unsubscribedDemoUser.subscribed = false ∧
    smsHandler demoSmsEnv unsubscribedDemoUser ("NEXT".data) =
      some ({ unsubscribedDemoUser with
                openQ := some (Payload.sample ("Consulting".data) ("cons_profit_1".data)) },
        ["Which analysis should you run first?".data]) := by
  exact ⟨rfl, rfl⟩

/-- C7 (amended, proved): STOP immediately clears `subscribed` (with the
confirmation reply); while `subscribed` is false, scheduler ticks emit no
send to that user (their phone never appears among tick sends), and no
webhook reply other than START can re-set `subscribed` — but reactive
replies themselves are not suppressed (see the counterexample). -/
theorem stop_unsubscribes_and_ticks_skip (env : SmsEnv) (tenv : TickEnv)
    (u : UserState) (users : List UserState) (body : Str) :
    (smsHandler env u ("STOP".data) =
      some ({ u with subscribed := false }, [unsubscribedMsg])) ∧
    (u.subscribed = false → u ∈ users →
      (∀ v ∈ users, v.phone = u.phone → v = u) →
      ∀ s ∈ (minuteTick tenv users).2.1, s.1 ≠ u.phone) ∧
    (u.subscribed = false → extractCmd (pyStrip body) ≠ "START".data →
      ∀ u' msgs, smsHandler env u body = some (u', msgs) → u'.subscribed = false) := by
  refine ⟨rfl, ?_, ?_⟩
  · intro hsub hmem huniq s hs heq
    rcases minuteTick_sends_from_subscribed tenv users s hs with ⟨v, hv, hvsub, hvp⟩
    have : v = u := huniq v hv (by rw [hvp, heq])
    rw [this] at hvsub
    rw [hvsub] at hsub
    exact Bool.noConfusion hsub
  · intro hsub hstart u' msgs h
    have hset := smsHandler_subscribed env u body h
    by_cases hstop : extractCmd (pyStrip body) ∈ STOP_COMMANDS
    · rw [hset, if_pos hstop]
    · rw [hset, if_neg hstop, if_neg hstart]
      exact hsub

/-- C7 witness: the amended theorem applied to the demo environment, the
unsubscribed user alone in the table, and an arbitrary non-command reply. -/
theorem stop_unsubscribes_and_ticks_skip_witness :
    (smsHandler demoSmsEnv unsubscribedDemoUser ("STOP".data) =
      some ({ unsubscribedDemoUser with subscribed := false }, [unsubscribedMsg])) ∧
    (∀ s ∈ (minuteTick failSendTickEnv [unsubscribedDemoUser]).2.1,
      s.1 ≠ unsubscribedDemoUser.phone) ∧
    (∀ u' msgs, smsHandler demoSmsEnv unsubscribedDemoUser ("HELLO".data) =
      some (u', msgs) → u'.subscribed = false) := by
  refine ⟨(stop_unsubscribes_and_ticks_skip demoSmsEnv failSendTickEnv
      unsubscribedDemoUser [unsubscribedDemoUser] ("HELLO".data)).1,
    (stop_unsubscribes_and_ticks_skip demoSmsEnv failSendTickEnv
      unsubscribedDemoUser [unsubscribedDemoUser] ("HELLO".data)).2.1
      (by decide) (by decide) (by decide),
    (stop_unsubscribes_and_ticks_skip demoSmsEnv failSendTickEnv
      unsubscribedDemoUser [unsubscribedDemoUser] ("HELLO".data)).2.2
      (by decide) (by decide)⟩

/-! ## C4 — grading closes the loop -/

/-- C4 (claim statement, proved): with an open sample or math question, a
structured success verdict closes the open question and bumps the stats
(`asked` +1; `correct`/`streak` +1 when correct; `streak` zeroed when
incorrect — last conjunct); a grader error / parse-error result returns a
retry prompt with the user record (open question and stats) exactly
unchanged. -/
theorem grading_closes_loop (gA : Str → Str → Str → SampleGrade)
    (gM : Str → Str → Str → Option MathGrade) (u : UserState) (raw : Str) :
    (∀ ptrack qid c r t, u.openQ = some (.sample ptrack qid) →
      gA (resolveTrack ptrack u.track) qid (pyStrip raw) = .graded c r t →
      gradeOpen gA gM u raw =
        .reply { u with stats := bumpStats u.stats c, openQ := none }
          (sampleReplyText c r t)) ∧
    (∀ ptrack qid, u.openQ = some (.sample ptrack qid) →
      gA (resolveTrack ptrack u.track) qid (pyStrip raw) = .err →
      gradeOpen gA gM u raw = .reply u sampleRetryMsg) ∧
    (∀ ptrack qid c e un r, u.openQ = some (.math qid ptrack) →
      gM (resolveTrack ptrack u.track) qid (pyStrip raw) = some (.graded c e un r) →
      gradeOpen gA gM u raw =
        .reply { u with stats := bumpStats u.stats c, openQ := none }
          (mathReplyText c e un r)) ∧
    (∀ ptrack qid, u.openQ = some (.math qid ptrack) →
      gM (resolveTrack ptrack u.track) qid (pyStrip raw) = some .parseErr →
      gradeOpen gA gM u raw = .reply u mathRetryMsg) ∧
    (∀ c : Bool,
      (bumpStats u.stats c).asked = u.stats.asked + 1 ∧
      (bumpStats u.stats c).correct =
        (if c then u.stats.correct + 1 else u.stats.correct) ∧
      (bumpStats u.stats c).streak = (if c then u.stats.streak + 1 else 0)) := by
  refine ⟨?_, ?_, ?_, ?_, ?_⟩
  · intro ptrack qid c r t hq hg
    unfold gradeOpen
    rw [hq]
    dsimp only
    rw [hg]
  · intro ptrack qid hq hg
    unfold gradeOpen
    rw [hq]
    dsimp only
    rw [hg]
  · intro ptrack qid c e un r hq hg
    unfold gradeOpen
    rw [hq]
    dsimp only
    rw [hg]
  · intro ptrack qid hq hg
    unfold gradeOpen
    rw [hq]
    dsimp only
    rw [hg]
  · intro c
    cases c <;> exact ⟨rfl, rfl, rfl⟩

/-- Fixture: a user with an open sample question and nonzero stats. -/
def witUserSample : UserState :=
  { freshUser ("+15550000004".data) with
      openQ := some (.sample ("Consulting".data) ("cons_profit_1".data)),
      stats := ⟨5, 3, 2⟩ }

/-- Fixture: a user with an open math question and nonzero stats. -/
def witUserMath : UserState :=
  { freshUser ("+15550000005".data) with
      openQ := some (.math ("mm_gen_sub:100:40:60".data) ("General".data)),
      stats := ⟨5, 3, 2⟩ }

def gradeAnswerOkFx : Str → Str → Str → SampleGrade :=
  fun _ _ _ => SampleGrade.graded true none none

def gradeAnswerErrFx : Str → Str → Str → SampleGrade :=
  fun _ _ _ => SampleGrade.err

def gradeMathOkFx : Str → Str → Str → Option MathGrade :=
  fun _ _ _ => some (MathGrade.graded false 60 none none)

def gradeMathErrFx : Str → Str → Str → Option MathGrade :=
  fun _ _ _ => some MathGrade.parseErr

/-- C4 witness: the theorem applied to concrete users and grader outcomes —
correct sample grade, sample grading error, incorrect math grade, math parse
error. -/
theorem grading_closes_loop_witness :
    gradeOpen gradeAnswerOkFx gradeMathErrFx witUserSample ("A".data) =
      .reply { witUserSample with
          stats := bumpStats witUserSample.stats true,
          openQ := none } (sampleReplyText true none none) ∧
    gradeOpen gradeAnswerErrFx gradeMathErrFx witUserSample ("A".data) =
      .reply witUserSample sampleRetryMsg ∧
    gradeOpen gradeAnswerErrFx gradeMathOkFx witUserMath ("61".data) =
      .reply { witUserMath with
          stats := bumpStats witUserMath.stats false,
          openQ := none } (mathReplyText false 60 none none) ∧
    gradeOpen gradeAnswerErrFx gradeMathErrFx witUserMath ("x".data) =
      .reply witUserMath mathRetryMsg := by
  refine ⟨?_, ?_, ?_, ?_⟩
  · exact (grading_closes_loop gradeAnswerOkFx gradeMathErrFx witUserSample
      ("A".data)).1 _ _ _ _ _ rfl rfl
  · exact (grading_closes_loop gradeAnswerErrFx gradeMathErrFx witUserSample
      ("A".data)).2.1 _ _ rfl rfl
  · exact (grading_closes_loop gradeAnswerErrFx gradeMathOkFx witUserMath
      ("61".data)).2.2.1 _ _ _ _ _ _ rfl rfl
  · exact (grading_closes_loop gradeAnswerErrFx gradeMathErrFx witUserMath
      ("x".data)).2.2.2.1 _ _ rfl rfl

/-! ## C5 — the single-open-question invariant -/

/-- The operations of the claim: an inbound webhook message (NEXT, TRACK,
grading, any command), one scheduler pass over this user, or a signup/update
call. -/
inductive Op
  | inbound (body : Str)
  | tick (now : ℤ)
  | signupOp (name track tz : Option Str) (perDay : Option ℤ)

/-- Embedding of the user-record part of `server.py:signup` for an existing
user: apply the provided fields (`per_day` clamped), force `subscribed`,
reset and "ensure" today's schedule (same gated pattern as FREQ), then open a
fresh question (the outbound welcome SMS is outside the user record). -/
def signupUpdate (env : SmsEnv) (u : UserState)
    (name track tz : Option Str) (perDay : Option ℤ) : UserState :=
  let u1 := match name with | some n => { u with name := n } | none => u
  let u2 := match track with | some t => { u1 with track := t } | none => u1
  let u3 := match tz with | some z => { u2 with timezone := z } | none => u2
  let u4 := match perDay with
    | some n => { u3 with perDay := clamp13 n }
    | none => u3
  let u5 := { u4 with subscribed := true, schedule := ⟨some env.todayLocal, []⟩ }
  let u6 := ensureTodaysSchedule env.freshSlots env.todayLocal u5
  let tp := composeQuestionText env.pick env.make (trackOrDefault u6.track)
  { u6 with openQ := some tp.2 }

def tickEnvOf (env : SmsEnv) (send : Str → Str → Except Unit Unit)
    (now : ℤ) : TickEnv :=
  { pick := env.pick, make := env.make, sendSms := send
    freshSlots := env.freshSlots, todayLocal := env.todayLocal, nowUtc := now }

/-- Apply one operation to a user record (the state the DB would hold
afterwards: an aborted tick or a crashed handler leaves the row unsaved). -/
def applyOp (env : SmsEnv) (send : Str → Str → Except Unit Unit)
    (u : UserState) : Op → UserState
  | .inbound body =>
      match smsHandler env u body with
      | some (u', _) => u'
      | none => u
  | .tick now =>
      let r := processUser (tickEnvOf env send now) u
      if r.2.2 then u else r.1
  | .signupOp n t z pd => signupUpdate env u n t z pd

def applyOps (env : SmsEnv) (send : Str → Str → Except Unit Unit)
    (u : UserState) (ops : List Op) : UserState :=
  ops.foldl (applyOp env send) u

/-- Number of pending questions a user holds (`open` is a single slot). -/
def openCount (u : UserState) : ℕ :=
  match u.openQ with
  | none => 0
  | some _ => 1

theorem openCount_le_one (u : UserState) : openCount u ≤ 1 := by
  unfold openCount
  cases u.openQ <;> simp

theorem dueLoop_openQ_last (pick : Str → Except Unit (Option SampleQ))
    (make : Str → Except Unit (Option MathQ)) (fresh : ℤ → List ℤ)
    (today : Str) (now : ℤ) :
    ∀ (due : List ℤ) (u : UserState) (d : ℤ),
      (dueLoop (okTickEnv pick make fresh today now) (d :: due) u).1.openQ =
        some (composeQuestionText pick make (trackOrDefault u.track)).2 := by
  intro due
  induction due with
  | nil => intro u d; rfl
  | cons d2 rest ih =>
    intro u d
    exact ih { u with openQ := (some
      (composeQuestionText pick make (trackOrDefault u.track)).2) } d2

/-- C5 (claim statement, proved): starting from a fresh user, any sequence of
webhook messages (NEXT, TRACK, …), scheduler passes and signup calls leaves
at most one open question (the record holds a single `open` slot); moreover
an opening operation always overwrites that slot with the newly composed
payload — NEXT does so for any prior state (second conjunct), TRACK likewise
on a valid track (third conjunct), and a scheduler dispatch of one or more
due sends leaves exactly the last composed payload open (fourth conjunct). -/
theorem single_open_question (env : SmsEnv)
    (send : Str → Str → Except Unit Unit) (phone : Str) (ops : List Op)
    (now : ℤ) :
    openCount (applyOps env send (freshUser phone) ops) ≤ 1 ∧
    (∀ u : UserState, smsHandler env u ("NEXT".data) =
      some ({ u with openQ := (some
          (composeQuestionText env.pick env.make (trackOrDefault u.track)).2) },
        [(composeQuestionText env.pick env.make (trackOrDefault u.track)).1])) ∧
    (∀ u : UserState, smsHandler env u ("TRACK GMAT".data) =
      some ({ u with track := "GMAT".data, openQ := (some
          (composeQuestionText env.pick env.make ("GMAT".data)).2) },
        [trackChangedMsg ("GMAT".data),
         (composeQuestionText env.pick env.make ("GMAT".data)).1])) ∧
    (∀ (u : UserState) (d : ℤ) (due : List ℤ),
      (dueLoop (okTickEnv env.pick env.make env.freshSlots env.todayLocal now)
          (d :: due) u).1.openQ =
        some (composeQuestionText env.pick env.make (trackOrDefault u.track)).2) := by
  refine ⟨openCount_le_one _, fun u => rfl, fun u => rfl, ?_⟩
  intro u d due
  exact dueLoop_openQ_last env.pick env.make env.freshSlots env.todayLocal now due u d

/-! ## C10 — `pick_sample_question` -/

theorem lookup_none_of_not_mem_keys {β : Type} :
    ∀ (l : List (Str × β)) (t : Str), t ∉ l.map Prod.fst →
      List.lookup t l = none := by
  intro l
  induction l with
  | nil => intro t h; rfl
  | cons p rest ih =>
    intro t h
    obtain ⟨k, v⟩ := p
    simp only [List.map_cons, List.mem_cons] at h
    push_neg at h
    have hne : (t == k) = false := beq_eq_false_iff_ne.mpr h.1
    simp [List.lookup, hne, ih t h.2]

/-- C10 (claim statement, proved): `pick_sample_question` is a pure function
of the track name (hence returns the same question on every call); for each
of the fixed track names it returns the first question of that track's
nonempty source-order list, and for any unknown track it returns `None`. -/
theorem pick_sample_question_first (track : Str) :
    (track ∈ TRACK_NAMES →
      ∃ q qs, List.lookup track QUESTIONS = some (q :: qs) ∧
        pickSampleQuestion track = some q) ∧
    (track ∉ TRACK_NAMES → pickSampleQuestion track = none) := by
  constructor
  · intro hmem
    unfold TRACK_NAMES QUESTIONS at hmem
    simp only [List.map_cons, List.map_nil] at hmem
    fin_cases hmem <;> exact ⟨_, _, rfl, rfl⟩
  · intro hnone
    unfold pickSampleQuestion
    rw [lookup_none_of_not_mem_keys QUESTIONS track hnone]

/-- C10 witness: the theorem applied to the known track `Consulting` (whose
first source-order question is `cons_profit_1`) and to the unknown track
`Astronomy`. -/
theorem pick_sample_question_first_witness :
    (∃ q qs, List.lookup ("Consulting".data) QUESTIONS = some (q :: qs) ∧
      pickSampleQuestion ("Consulting".data) = some q) ∧
    pickSampleQuestion ("Astronomy".data) = none := by
  exact ⟨(pick_sample_question_first ("Consulting".data)).1 (by decide),
    (pick_sample_question_first ("Astronomy".data)).2 (by decide)⟩

/-! ## `tracks.py` — `parse_number` and `grade_math_q`

Python floats are modelled as rationals; every numeric literal these
functions manipulate is a short decimal, represented exactly. -/

/-- Model of `float(s)` on an unsigned decimal literal: `digits`, `digits.digits`,
`digits.` or `.digits`. Exponent/`inf`/`nan`/underscore forms are outside
what the qids and the claims exercise; on any other string `float` raises,
modelled as `none`. -/
def parseUnsignedDec (s : Str) : Option ℚ :=
  let intPart := s.takeWhile Char.isDigit
  let rest := s.dropWhile Char.isDigit
  match rest with
  | [] => if intPart = [] then none else some (natOfDigits intPart : ℚ)
  | '.' :: fracPart =>
      if fracPart.all Char.isDigit ∧ (intPart ≠ [] ∨ fracPart ≠ []) then
        some ((natOfDigits intPart : ℚ) +
          (natOfDigits fracPart : ℚ) / ((10 : ℚ) ^ fracPart.length))
      else none
  | _ => none

/-- Model of `float(s)` with an optional sign. -/
def parseFloat (s : Str) : Option ℚ :=
  match s with
  | '-' :: t => (parseUnsignedDec t).map (fun x => -x)
  | '+' :: t => parseUnsignedDec t
  | _ => parseUnsignedDec s

/-- Match of `-?\d+(?:\.\d+)?` anchored at the start of `s`. -/
def matchNumHere (s : Str) : Option ℚ :=
  let p := match s with
    | '-' :: t => (true, t)
    | _ => (false, s)
  let ds := p.2.takeWhile Char.isDigit
  if ds = [] then none
  else
    let rest := p.2.dropWhile Char.isDigit
    let val : ℚ :=
      match rest with
      | '.' :: r2 =>
          let fs := r2.takeWhile Char.isDigit
          if fs = [] then (natOfDigits ds : ℚ)
          else (natOfDigits ds : ℚ) + (natOfDigits fs : ℚ) / ((10 : ℚ) ^ fs.length)
      | _ => (natOfDigits ds : ℚ)
    some (if p.1 then -val else val)

/-- Model of `re.findall(r"-?\d+(?:\.\d+)?", s)`: first match (leftmost scan). -/
def findFirstNumber : Str → Option ℚ
  | [] => none
  | c :: t =>
      match matchNumHere (c :: t) with
      | some q => some q
      | none => findFirstNumber t

/-- Embedding of `tracks.parse_number`: strip, lowercase, drop commas; a
trailing `%` divides by 100, then a trailing `k` multiplies by 1000; parse
the remainder as a float, falling back to the first embedded number; `none`
models the `ValueError`. -/
def parseNumber (ans : Str) : Option ℚ :=
  let s0 := ((pyStrip ans).map Char.toLower).filter (fun c => c ≠ ',')
  let pm := if s0.getLast? = some '%' then (s0.dropLast, ((1 : ℚ) / 100))
            else (s0, 1)
  let km := if pm.1.getLast? = some 'k' then (pm.1.dropLast, pm.2 * 1000)
            else (pm.1, pm.2)
  match parseFloat km.1 with
  | some x => some (x * km.2)
  | none =>
      match findFirstNumber km.1 with
      | some x => some (x * km.2)
      | none => none

/-- Python `float(parts[i])` on a qid component. -/
def qidPart (parts : List Str) (i : ℕ) : Option ℚ :=
  (parts.get? i).bind parseFloat

/-- The tolerance comparison `ok(delta_abs, tolerance)`. -/
def okTol (delta tol : ℚ) : Bool := decide (delta ≤ tol)

/-- Embedding of `tracks.grade_math_q` (the `track` argument is unused by the
code, as in the source). `some .parseErr` is the `{"error": ...}` result for
an unparseable answer; `none` models Python falling off the end (unknown qid
kind → `None`) or an exception while re-parsing qid components. The
f-string rationales and the display-only `round(expected, 2)` of the IRR
reply are elided (`none` rationale); verdicts and expected values are exact. -/
def gradeMathQ (track qid answerRaw : Str) : Option MathGrade :=
  match parseNumber answerRaw with
  | none => some MathGrade.parseErr
  | some ans =>
    let parts := qid.splitOn ':'
    let kind := parts.headD []
    if kind = "mm_gen_sub".data then
      match qidPart parts 3 with
      | none => none
      | some e => some (.graded (okTol |ans - e| 0) e none
          (some "Arithmetic subtraction".data))
    else if kind = "mm_gen_pct".data then
      match qidPart parts 3 with
      | none => none
      | some e => some (.graded (okTol |ans - e| (max ((1 : ℚ) / 2) (|e| * (2 / 100))))
          e none (some "Percent-of calculation".data))
    else if kind = "mm_gen_div".data then
      match qidPart parts 3 with
      | none => none
      | some e => some (.graded (okTol |ans - e| (max (((2 : ℚ) / 100) * |e|) (1 / 4)))
          e none (some "Division / rate calculation".data))
    else if kind = "mm_cons_vtarget".data then
      match qidPart parts 1, qidPart parts 2, qidPart parts 3,
          qidPart parts 4, qidPart parts 5 with
      | some _, some _, some _, some _, some units =>
          some (.graded (okTol |ans - units| (1 / 2)) units (some "units".data) none)
      | _, _, _, _, _ => none
    else if kind = "mm_cons_breakeven".data then
      match qidPart parts 1, qidPart parts 2, qidPart parts 3, qidPart parts 4 with
      | some _, some _, some _, some units =>
          some (.graded (okTol |ans - units| (1 / 2)) units (some "users".data) none)
      | _, _, _, _ => none
    else if kind = "mm_cons_marginpct".data then
      match qidPart parts 1, qidPart parts 2, qidPart parts 3 with
      | some _, some _, some margin =>
          let userPctPts := ans * (if |ans| ≤ 3 / 2 then 100 else 1)
          some (.graded (okTol |userPctPts - margin| (1 / 2)) margin
            (some "%".data) (some "CM% = (P−V)/P × 100".data))
      | _, _, _ => none
    else if kind = "mm_cons_pricemargin".data then
      match qidPart parts 1, qidPart parts 2, qidPart parts 3 with
      | some _, some _, some priceNeeded =>
          some (.graded (okTol |ans - priceNeeded| (max ((1 / 100) * priceNeeded) (1 / 2)))
            priceNeeded (some "$".data)
            (some "Solve P from margin% = (P−V)/P → P = V / (1 − m)".data))
      | _, _, _ => none
    else if kind = "mm_ib_irr".data then
      match qidPart parts 4, qidPart parts 5 with
      | some e, some tol =>
          let userPctPts := ans * (if |ans| < 3 / 2 then 100 else 1)
          some (.graded (okTol |userPctPts - e| tol) e (some "%".data)
            (some "IRR ≈ (Final/Initial)^(1/Years) − 1, expressed as %".data))
      | _, _ => none
    else none

/-- The correct/incorrect verdict of a structured math grading, when there is
one. -/
def mathVerdict (track qid ans : Str) : Option Bool :=
  match gradeMathQ track qid ans with
  | some (MathGrade.graded c _ _ _) => some c
  | _ => none

/-! ## C9 — percentage-representation equivalence in math grading -/

/-- A qid whose expected value is a percentage (margin-percent or IRR) with
re-parsable components. -/
def percentQid (qid : Str) : Bool :=
  let parts := qid.splitOn ':'
  let kind := parts.headD []
  (decide (kind = "mm_cons_marginpct".data) && (qidPart parts 1).isSome &&
    (qidPart parts 2).isSome && (qidPart parts 3).isSome) ||
  (decide (kind = "mm_ib_irr".data) && (qidPart parts 4).isSome &&
    (qidPart parts 5).isSome)

theorem gradeMathQ_marginpct (track qid s : Str) (xv p1 p2 m : ℚ)
    (hk : (qid.splitOn ':').headD [] = "mm_cons_marginpct".data)
    (hp1 : qidPart (qid.splitOn ':') 1 = some p1)
    (hp2 : qidPart (qid.splitOn ':') 2 = some p2)
    (hm : qidPart (qid.splitOn ':') 3 = some m)
    (hparse : parseNumber s = some xv) :
    mathVerdict track qid s =
      some (okTol |xv * (if |xv| ≤ 3 / 2 then 100 else 1) - m| (1 / 2)) := by
  unfold mathVerdict gradeMathQ
  rw [hparse]
  dsimp only
  rw [hk]
  rw [if_neg (by decide), if_neg (by decide), if_neg (by decide),
      if_neg (by decide), if_neg (by decide), if_pos rfl]
  rw [hp1, hp2, hm]

theorem gradeMathQ_irr (track qid s : Str) (xv e tol : ℚ)
    (hk : (qid.splitOn ':').headD [] = "mm_ib_irr".data)
    (he : qidPart (qid.splitOn ':') 4 = some e)
    (htol : qidPart (qid.splitOn ':') 5 = some tol)
    (hparse : parseNumber s = some xv) :
    mathVerdict track qid s =
      some (okTol |xv * (if |xv| < 3 / 2 then 100 else 1) - e| tol) := by
  unfold mathVerdict gradeMathQ
  rw [hparse]
  dsimp only
  rw [hk]
  rw [if_neg (by decide), if_neg (by decide), if_neg (by decide),
      if_neg (by decide), if_neg (by decide), if_neg (by decide),
      if_neg (by decide), if_pos rfl]
  rw [he, htol]

/-- A generator-reachable contribution-margin-percent qid: price 50, variable
cost 10, margin (50−10)/50·100 = 80.0. -/
def pctQidFx : Str := "mm_cons_marginpct:50:10:80.0".data

/-- C9 (counterexample): on the margin-percent question with expected 80, the
value 8000 (percentage points) written bare (`"8000"`), with a percent sign
(`"8000%"`), and as the equivalent decimal fraction (`"80"`) does NOT get one
verdict: the bare form is graded incorrect while the other two are graded
correct — the ×100 heuristic only fires on magnitudes ≤ 1.5. -/
theorem percent_equivalence_counterexample :
    mathVerdict ("Consulting".data) pctQidFx ("8000".data) = some false ∧
    mathVerdict ("Consulting".data) pctQidFx ("8000%".data) = some true ∧
    mathVerdict ("Consulting".data) pctQidFx ("80".data) = some true := by
  exact ⟨rfl, rfl, rfl⟩

/-- C9 (amended, proved): for a percentage-expected question (margin-percent
or IRR), the three renderings of a value of `x` percentage points — a string
parsing to `x` (bare points), one parsing to `x/100` via a trailing `%`, and
one parsing to `x/100` as a decimal fraction — receive the same verdict
whenever `1.5 < x < 150`; outside that range the magnitude heuristic
(`×100` iff `|ans| ≤ 1.5`, strict for IRR) can split them (see the
counterexample). -/
theorem percent_equivalence_amended (track qid sB sP sD : Str) (x : ℚ)
    (hq : percentQid qid = true)
    (hB : parseNumber sB = some x)
    (hP : parseNumber sP = some (x / 100))
    (hD : parseNumber sD = some (x / 100))
    (hx1 : 3 / 2 < x) (hx2 : x < 150) :
    ∃ b, mathVerdict track qid sB = some b ∧
         mathVerdict track qid sP = some b ∧
         mathVerdict track qid sD = some b := by
  have hxpos : (0 : ℚ) < x := lt_trans (by norm_num) hx1
  have habsx : |x| = x := abs_of_pos hxpos
  have habsd : |x / 100| = x / 100 := abs_of_pos (by positivity)
  have hBle : ¬ (|x| ≤ 3 / 2) := by rw [habsx]; exact not_le.mpr hx1
  have hBlt : ¬ (|x| < 3 / 2) := by rw [habsx]; exact not_lt.mpr (le_of_lt hx1)
  have hPle : |x / 100| ≤ 3 / 2 := by rw [habsd]; linarith
  have hPlt : |x / 100| < 3 / 2 := by rw [habsd]; linarith
  have hxmul : x * 1 = x := mul_one x
  have hdmul : x / 100 * 100 = x := by field_simp
  simp only [percentQid, Bool.or_eq_true, Bool.and_eq_true, decide_eq_true_eq,
    Option.isSome_iff_exists] at hq
  rcases hq with ⟨⟨⟨hk, p1, hp1⟩, p2, hp2⟩, m, hm⟩ | ⟨⟨hk, e, he⟩, tol, htol⟩
  · refine ⟨okTol |x - m| (1 / 2), ?_, ?_, ?_⟩
    · rw [gradeMathQ_marginpct track qid sB x p1 p2 m hk hp1 hp2 hm hB,
        if_neg hBle, hxmul]
    · rw [gradeMathQ_marginpct track qid sP (x / 100) p1 p2 m hk hp1 hp2 hm hP,
        if_pos hPle, hdmul]
    · rw [gradeMathQ_marginpct track qid sD (x / 100) p1 p2 m hk hp1 hp2 hm hD,
        if_pos hPle, hdmul]
  · refine ⟨okTol |x - e| tol, ?_, ?_, ?_⟩
    · rw [gradeMathQ_irr track qid sB x e tol hk he htol hB, if_neg hBlt, hxmul]
    · rw [gradeMathQ_irr track qid sP (x / 100) e tol hk he htol hP,
        if_pos hPlt, hdmul]
    · rw [gradeMathQ_irr track qid sD (x / 100) e tol hk he htol hD,
        if_pos hPlt, hdmul]

/-- C9 witness: the amended theorem at `x = 40` percentage points on the
margin-percent question — `"40"`, `"40%"` and `"0.40"` all get one verdict. -/
theorem percent_equivalence_amended_witness :
    percentQid pctQidFx = true ∧
    parseNumber ("40".data) = some 40 ∧
    parseNumber ("40%".data) = some (40 / 100) ∧
    parseNumber ("0.40".data) = some (40 / 100) ∧
    (3 : ℚ) / 2 < 40 ∧ (40 : ℚ) < 150 ∧
    ∃ b, mathVerdict ("Consulting".data) pctQidFx ("40".data) = some b ∧
         mathVerdict ("Consulting".data) pctQidFx ("40%".data) = some b ∧
         mathVerdict ("Consulting".data) pctQidFx ("0.40".data) = some b := by
  refine ⟨by decide, by decide, by decide, by decide, by norm_num, by norm_num, ?_⟩
  exact percent_equivalence_amended ("Consulting".data) pctQidFx ("40".data)
    ("40%".data) ("0.40".data) 40 (by decide) (by decide) (by decide) (by decide)
    (by norm_num) (by norm_num)

end TextingProject
